import Mathlib

/-!
Verification development for the LoanTwin legal-document extraction pipeline
(`backend/app/services/extractor.py`).  The Python source is shallowly
embedded: pure string/list manipulation is translated directly; calls into
external libraries (PyMuPDF, OCR backends, the LLM client, `re.search` for
a handful of fixed patterns) are represented by explicit input data that
records the outcome of the call; the global PRNG (`random.uniform`) is an
explicit stream of draws.
-/

namespace LoanTwin

/-! ## String helpers (Python semantics) -/

/-- Python `\s` / `str.strip()` whitespace characters (ASCII range). -/
def isPySpace (c : Char) : Bool :=
  c = ' ' || c = '\t' || c = '\n' || c = '\x0d' || c = '\x0b' || c = '\x0c'

/-- `str.strip()` on a character list. -/
def pyStripL (l : List Char) : List Char :=
  ((l.dropWhile isPySpace).reverse.dropWhile isPySpace).reverse

/-- `str.strip()`. -/
def pyStrip (s : String) : String := ⟨pyStripL s.data⟩

/-- `text.split('\n')[0]`: everything before the first newline. -/
def pyFirstLine (s : String) : String := ⟨s.data.takeWhile (fun c => ¬ (c = '\n'))⟩

/-- `s[:n]` on a string. -/
def strTakeStr (n : Nat) (s : String) : String := ⟨s.data.take n⟩

/-- Does `l` start with the character sequence `pre`? -/
def startsWithSeq : List Char → List Char → Bool
  | [], _ => true
  | _ :: _, [] => false
  | p :: ps, c :: cs => p = c && startsWithSeq ps cs

/-- Does `hay` contain `needle` as a contiguous subsequence?  Used to model
Python `needle in hay` and `re.search` for plain-word patterns. -/
def containsSeq (needle hay : List Char) : Bool :=
  match hay with
  | [] => needle.isEmpty
  | _ :: t => startsWithSeq needle hay || containsSeq needle t

/-- Python `needle in hay` (case-sensitive substring test). -/
def strContains (hay needle : String) : Bool := containsSeq needle.data hay.data

/-- `str.lower()` (ASCII case folding, character by character). -/
def lowerStr (s : String) : String := ⟨s.data.map Char.toLower⟩

/-- Case-insensitive substring test: models `re.search(kw, text, re.IGNORECASE)`
for the fixed keyword literals of the source (no regex metacharacters). -/
def containsCI (needle hay : String) : Bool :=
  containsSeq (lowerStr needle).data (lowerStr hay).data

/-- `s.split('\n')` on a character list: the accumulated current chunk is
closed at every newline; a trailing newline yields a trailing empty
chunk, like Python `split`. -/
def splitNl (l : List Char) (acc : List Char) : List String :=
  match l with
  | [] => [⟨acc.reverse⟩]
  | '\n' :: rest => ⟨acc.reverse⟩ :: splitNl rest []
  | c :: rest => splitNl rest (c :: acc)

/-- `str.splitlines()` for texts whose only line separator is `'\n'`
(the only separator occurring in the embedded documents): like
`split('\n')` except that a trailing newline does not produce a final
empty line, and the empty string has no lines. -/
def pySplitlines (s : String) : List String :=
  if s = "" then []
  else
    let parts := splitNl s.data []
    if s.data.getLast? = some '\n' then parts.dropLast else parts

/-- Numeric value of a digit list (most significant first). -/
def natOfDigits (l : List Char) : Nat :=
  l.foldl (fun a c => a * 10 + (c.toNat - 48)) 0

/-- `float(s)` for strings of the shape `\d+(\.\d+)?` produced by the
source's captured groups (exact rational value of the decimal literal). -/
def parseDec (s : String) : ℚ :=
  let l := s.data
  let intPart := l.takeWhile Char.isDigit
  let rest := l.drop intPart.length
  let frac :=
    match rest with
    | '.' :: r => r.takeWhile Char.isDigit
    | _ => []
  (natOfDigits intPart : ℚ) + (natOfDigits frac : ℚ) / ((10 : ℚ) ^ frac.length)

/-- Python `round(x, 1)` (round-half-to-even at one decimal place), on the
exact rational value. -/
def pyRound1 (q : ℚ) : ℚ :=
  let x := q * 10
  let f : ℤ := ⌊x⌋
  let r : ℤ :=
    if x - f < 1/2 then f
    else if 1/2 < x - f then f + 1
    else if f % 2 = 0 then f else f + 1
  (r : ℚ) / 10

/-! ## Data model -/

/-- A parsed facility entry.  Table-parsed rows (`_parse_facility_table`)
carry no `type`/`confidence` key, regex-fallback and synthetic facilities
do; absent keys are `none`. -/
structure Facility where
  name : String
  ftype : Option String
  amount : ℚ
  currency : String
  confidence : Option ℚ
  deriving DecidableEq

/-- An extracted clause (`extract_clauses` output element). -/
structure Clause where
  heading : String
  body : String
  page_start : Nat
  page_end : Nat
  variance_score : ℚ
  is_standard : Bool
  deriving DecidableEq

/-- The slice of an extracted table read by `extract_facilities`: its
`type` tag and, for facility schedules, the parsed facility rows. -/
structure Table where
  ttype : String
  data : List Facility
  deriving DecidableEq

/-- A financial covenant (`extract_covenants` output element). -/
structure Covenant where
  ctype : String
  name : String
  threshold : String
  current_value : ℚ
  headroom_percent : ℚ
  test_frequency : String
  confidence : ℚ
  deriving DecidableEq

/-- An obligation (`extract_obligations` output element). -/
structure Obligation where
  role : String
  title : String
  details : String
  due_hint : String
  status : String
  is_esg : Bool
  confidence : ℚ
  deriving DecidableEq

/-- An event of default.  Entries built from a matched trigger pattern
carry `confidence` 0.90; the three hard-coded default entries carry no
confidence key (`none`). -/
structure EventOfDefault where
  trigger : String
  notice : String
  grace_period : String
  confidence : Option ℚ
  deriving DecidableEq

/-- A citation (`generate_citations` output element). -/
structure Citation where
  keyword : String
  clause : String
  page_start : Nat
  page_end : Nat
  confidence : ℚ
  deriving DecidableEq

/-- A loaded page as stored in `self.pages`. -/
structure Page where
  page : Nat
  text : String
  needs_ocr : Bool
  deriving DecidableEq

/-! ## Scanned-page detector (`OCREngine.is_scanned_page`) -/

/-- One embedded image of a page: whether `page.parent.extract_image`
succeeded (returned a truthy dict), and the reported pixel dimensions. -/
structure ImgInfo where
  extractOk : Bool
  width : ℚ
  height : ℚ
  deriving DecidableEq

/-- `OCREngine.is_scanned_page`: near-empty text plus at least one image,
or some image whose extracted dimensions strictly exceed 80% of the page
rectangle in both directions. -/
def is_scanned_page (text : String) (images : List ImgInfo) (pw ph : ℚ) : Bool :=
  if (pyStrip text).length < 50 ∧ ¬ images.isEmpty then true
  else
    images.any (fun im =>
      im.extractOk && decide (pw * (4/5) < im.width) && decide (ph * (4/5) < im.height))

/-- The scanned-page predicate as the specification states it (coverage of
at least 80% of both dimensions).  Written from the spec's words, for
comparison with `is_scanned_page`. -/
def spec_is_scanned (text : String) (images : List ImgInfo) (pw ph : ℚ) : Prop :=
  ((pyStrip text).length < 50 ∧ images ≠ []) ∨
    ∃ im ∈ images, pw * (4/5) ≤ im.width ∧ ph * (4/5) ≤ im.height

/-! ## OCR engine (`OCREngine.process_page_image`)

The three OCR backends are external calls; each is represented by input
data recording availability and the outcome the call would produce:
`none` for an exception (or an unavailable reader), `some` for a returned
value.  The Groq call either returns message content or raises with a
message. -/

/-- The OCR backends, in the order the source consults them. -/
inductive Backend where
  | easyocr
  | tesseract
  | groq
  deriving DecidableEq

/-- Recorded behaviour of the optional OCR backends for one page. -/
structure OcrAttempts where
  easyAvailable : Bool
  easyResult : Option (List String)
  tessAvailable : Bool
  tessResult : Option String
  groqConfigured : Bool
  groqResult : Except String String

/-- Text produced by the EasyOCR branch, if it runs and succeeds with a
non-empty result list (`if results: return "\n".join(results)`). -/
def easyOut (a : OcrAttempts) : Option String :=
  if a.easyAvailable then
    match a.easyResult with
    | some rs => if rs.isEmpty then none else some (String.intercalate "\n" rs)
    | none => none
  else none

/-- Text produced by the Tesseract branch, if it runs and returns text
with non-empty strip (`if text.strip(): return text`). -/
def tessOut (a : OcrAttempts) : Option String :=
  if a.tessAvailable then
    match a.tessResult with
    | some t => if pyStrip t = "" then none else some t
    | none => none
  else none

/-- Text produced by the Groq branch when a client is configured: the
labelled generated content on success, the labelled error string when the
call raises (the source returns this error string, it does not fall
through). -/
def groqOut (a : OcrAttempts) (n : Nat) : Option String :=
  if a.groqConfigured then
    some (match a.groqResult with
      | .ok content => "[AI-Generated Content for Page " ++ toString n ++ "]\n" ++ content
      | .error e => "[OCR processing failed for page " ++ toString n ++ ": " ++ e ++ "]")
  else none

/-- The final placeholder emitted when no backend is available. -/
def ocrPlaceholder (n : Nat) : String :=
  "[OCR required for page " ++ toString n ++ " - install easyocr or pytesseract]"

/-- Result of `process_page_image`: the text, the list of backends that
were consulted (in consultation order), and which backend produced the
text (`none` = the final placeholder). -/
structure OcrOutcome where
  text : String
  attempts : List Backend
  producedBy : Option Backend
  deriving DecidableEq

/-- `OCREngine.process_page_image`: try EasyOCR, then Tesseract, then the
Groq generative fallback, returning the first produced text, else the
placeholder.  A backend is consulted only when its library/client is
present and every earlier backend produced nothing. -/
def process_page_image (a : OcrAttempts) (n : Nat) : OcrOutcome :=
  let t1 : List Backend := if a.easyAvailable then [.easyocr] else []
  match easyOut a with
  | some s => ⟨s, t1, some .easyocr⟩
  | none =>
    let t2 := t1 ++ (if a.tessAvailable then [.tesseract] else [])
    match tessOut a with
    | some s => ⟨s, t2, some .tesseract⟩
    | none =>
      let t3 := t2 ++ (if a.groqConfigured then [.groq] else [])
      match groqOut a n with
      | some s => ⟨s, t3, some .groq⟩
      | none => ⟨ocrPlaceholder n, t3, none⟩

/-! ## Facilities (`extract_facilities` and the `build_dlr` fallback) -/

/-- One step of the regex-fallback loop of `extract_facilities`: when the
facility pattern matched (`m`), append a facility whose confidence is the
PRNG draw of `_get_confidence` (draw stream `r`, one draw per appended
facility). -/
def facStep (name ftype : String) (amt : ℚ) (cur : String) (m : Bool) (r : Nat → ℚ)
    (acc : List Facility × Nat) : List Facility × Nat :=
  if m then (acc.1 ++ [⟨name, some ftype, amt, cur, some (r acc.2)⟩], acc.2 + 1) else acc

/-- `LegalExtractor.extract_facilities`: the data of the first
`facility_schedule` table if any, else the regex fallback over the three
fixed facility patterns.  `mA`/`mB`/`mR` record whether
`re.search(pattern, full_text, IGNORECASE)` found `Facility A` /
`Facility B` / `Revolving Facility|RCF`; `gbp` records whether `'£'`
occurs in `full_text[:1000]`. -/
def extract_facilities (tables : List Table) (mA mB mR : Bool) (gbp : Bool)
    (r : Nat → ℚ) : List Facility :=
  match tables.find? (fun t => decide (t.ttype = "facility_schedule")) with
  | some t => t.data
  | none =>
    let cur := if gbp then "GBP" else "USD"
    (facStep "Revolving Facility" "Revolving Credit" 50000000 cur mR r
      (facStep "Facility B" "Term Loan" 100000000 cur mB r
        (facStep "Facility A" "Term Loan" 200000000 cur mA r ([], 0)))).1

/-- Python truthiness of the `total_commitment` metadata value. -/
def commitmentTruthy : Option ℚ → Bool
  | none => false
  | some q => decide (q ≠ 0)

/-- The facilities list assembled by `build_dlr`: the extracted list, or —
only when it is empty and the extracted total commitment is truthy — a
single synthetic `Primary Facility` sized from the commitment. -/
def dlrFacilities (extracted : List Facility) (commitment : Option ℚ)
    (ftype cur : String) : List Facility :=
  if extracted.isEmpty ∧ commitmentTruthy commitment then
    [⟨"Primary Facility", some ftype, commitment.getD 0, cur, some (17/20)⟩]
  else extracted

/-! ## Total commitment (`extract_metadata`, commitment section) -/

/-- `(million|billion)` unit scaling applied to the second amount pattern
when its optional unit group matched. -/
def scaleUnit (a : ℚ) : Option String → ℚ
  | some u =>
    if lowerStr u = "million" then a * 1000000
    else if lowerStr u = "billion" then a * 1000000000
    else a
  | none => a

/-- The commitment logic of `extract_metadata`: the AI value when truthy;
otherwise the first matching amount regex (`m1` the Maximum/Total/
Aggregate-Amount pattern, `m2` the Commitment/Principal pattern with its
optional million/billion unit group); otherwise it stays `None`. -/
def extractCommitment (ai : Option ℚ) (m1 : Option ℚ)
    (m2 : Option (ℚ × Option String)) : Option ℚ :=
  let fromRegex : Option ℚ :=
    match m1 with
    | some a => some a
    | none =>
      match m2 with
      | some (a, u) => some (scaleUnit a u)
      | none => none
  match ai with
  | some a => if a = 0 then fromRegex else some a
  | none => fromRegex

/-! ## Covenants (`extract_covenants`) -/

/-- `LegalExtractor.extract_covenants`.  `lev` / `icr` record the captured
numeric group (`group(2)`, as written in the document) of the leverage and
interest-coverage `re.search` calls, `none` when the pattern found
nothing.  Matched covenants take their threshold from the text with
confidence 0.96 and a current value at a fixed multiplier of the
threshold; otherwise a fully synthetic default covenant (confidence 0.90)
is emitted.  The result always has exactly these two covenants in this
order. -/
def extract_covenants (lev icr : Option String) : List Covenant :=
  (match lev with
   | some s =>
     [⟨"Financial", "Leverage Ratio", "< " ++ s ++ "x",
       pyRound1 (parseDec s * (4/5)), 20, "Quarterly", 24/25⟩]
   | none =>
     [⟨"Financial", "Leverage Ratio", "< 4.0x", 14/5, 30, "Quarterly", 9/10⟩]) ++
  (match icr with
   | some s =>
     [⟨"Financial", "Interest Coverage Ratio", "> " ++ s ++ "x",
       pyRound1 (parseDec s * (7/5)), 40, "Quarterly", 24/25⟩]
   | none =>
     [⟨"Financial", "Interest Coverage Ratio", "> 3.0x", 21/5, 40, "Quarterly", 9/10⟩])

/-! ## Obligations (`extract_obligations`) -/

/-- One step of the obligation-pattern loop: when the pattern matched,
append an obligation whose `details` is the first 200 characters of the
matched snippet, and whose confidence is a fresh PRNG draw
(`round(random.uniform(0.92, 0.99), 2)`, stream `r`). -/
def obStep (title role freq : String) (m : Option String) (r : Nat → ℚ)
    (acc : List Obligation × Nat) : List Obligation × Nat :=
  match m with
  | some snip =>
    (acc.1 ++ [⟨role, title, strTakeStr 200 snip ++ "...", freq, "Draft",
               strContains title "ESG" || strContains title "Sustainability",
               r acc.2⟩], acc.2 + 1)
  | none => acc

/-- `LegalExtractor.extract_obligations`.  `m0`–`m3` record `m.group(0)`
of the four obligation regexes (Financial Statements, Compliance
Certificate, Utilization Request, ESG Impact Report), `none` when the
regex found nothing. -/
def extract_obligations (m0 m1 m2 m3 : Option String) (r : Nat → ℚ) : List Obligation :=
  (obStep "ESG Impact Report" "Borrower" "Annually" m3 r
    (obStep "Utilization Request" "Lender" "5 Business Days" m2 r
      (obStep "Compliance Certificate" "Borrower" "Quarterly" m1 r
        (obStep "Financial Statements" "Borrower" "90 days post-YE" m0 r ([], 0))))).1

/-! ## Events of default (`build_dlr`, lines 882–905) -/

/-- An event-of-default entry built from a matched trigger pattern:
notice is `Required` exactly when the lower-cased trigger contains
`breach`; confidence 0.90. -/
def eodEntry (trigger grace : String) : EventOfDefault :=
  ⟨trigger, if strContains (lowerStr trigger) "breach" then "Required" else "None",
   grace, some (9/10)⟩

/-- The three hard-coded default events used when no trigger pattern
matched (these dicts carry no confidence key). -/
def defaultEvents : List EventOfDefault :=
  [⟨"Non-Payment", "None", "3 Business Days", none⟩,
   ⟨"Breach of Covenant", "Required", "30 days (if curable)", none⟩,
   ⟨"Cross-Default", "Required", "None", none⟩]

/-- The events-of-default assembly of `build_dlr`.  `m0`–`m5` record
whether `re.search` found each of the six fixed trigger patterns
(Non-Payment, Breach of Covenant, Cross-Default, Insolvency, Material
Adverse Change, Misrepresentation) in the full text. -/
def build_events_of_default (m0 m1 m2 m3 m4 m5 : Bool) : List EventOfDefault :=
  let evs :=
    (if m0 then [eodEntry "Non-Payment" "3 Business Days"] else []) ++
    (if m1 then [eodEntry "Breach of Covenant" "30 days (if curable)"] else []) ++
    (if m2 then [eodEntry "Cross-Default" "None"] else []) ++
    (if m3 then [eodEntry "Insolvency" "None"] else []) ++
    (if m4 then [eodEntry "Material Adverse Change" "Immediate"] else []) ++
    (if m5 then [eodEntry "Misrepresentation" "None"] else [])
  if evs.isEmpty then defaultEvents else evs

/-! ## Clause segmenter (`extract_clauses` and `HEADING_RE`)

`HEADING_RE = ^(Clause|Article|Section)\s*(\d+[\.\d]*)\s*[-–:.]?\s*(.+)`,
case-insensitive, applied with `re.match` to the stripped line.  The
matcher below reproduces the leftmost-greedy semantics, including the
single give-back step of the greedy number group that occurs when the
line ends right after the number (possible because the line is stripped,
so the text after the number is all-whitespace only when it is empty). -/

/-- Case-insensitive check that `l` starts with the (lower-case) keyword
characters `kw`. -/
def lowerStartsWith : List Char → List Char → Bool
  | [], _ => true
  | _ :: _, [] => false
  | p :: ps, c :: cs => c.toLower = p && lowerStartsWith ps cs

/-- The optional punctuation class `[-–:.]`. -/
def isHeadPunct (c : Char) : Bool :=
  c = '-' || c = '–' || c = ':' || c = '.'

/-- Group 3 of `HEADING_RE` given the text following the number group:
skip whitespace; a leading punctuation character is consumed only when
something follows it (otherwise the optional group backtracks to empty
and the punctuation character itself starts the title). -/
def headingTitle (tail : List Char) : List Char :=
  let t := tail.dropWhile isPySpace
  match t with
  | [] => []
  | c :: cs =>
    if isHeadPunct c then
      let t2 := cs.dropWhile isPySpace
      if t2.isEmpty then t else t2
    else t

/-- Match the part of `HEADING_RE` after the keyword: `\s*` then the
number group `\d+[\.\d]*` then `\s*[-–:.]?\s*(.+)`.  Returns
(group 2, group 3). -/
def headingAfterKw (rest : List Char) : Option (List Char × List Char) :=
  let rest2 := rest.dropWhile isPySpace
  match rest2 with
  | [] => none
  | c :: _ =>
    if ¬ c.isDigit then none
    else
      let numMax := rest2.takeWhile (fun ch => ch.isDigit || ch = '.')
      let tail0 := rest2.drop numMax.length
      if ¬ (tail0.dropWhile isPySpace).isEmpty then
        some (numMax, headingTitle tail0)
      else if 2 ≤ numMax.length then
        some (numMax.dropLast, headingTitle (numMax.drop (numMax.length - 1) ++ tail0))
      else none

/-- Try one keyword alternative of `HEADING_RE` against the stripped
line `s`; group 1 is the keyword as written in the line. -/
def tryHeadingKw (kw : String) (s : List Char) : Option (String × String × String) :=
  if lowerStartsWith (lowerStr kw).data s then
    match headingAfterKw (s.drop kw.length) with
    | some (num, title) => some (⟨s.take kw.length⟩, ⟨num⟩, ⟨title⟩)
    | none => none
  else none

/-- `HEADING_RE.match(line.strip())`: the three captured groups, or
`none` when the line is not a clause heading. -/
def matchHeading (line : String) : Option (String × String × String) :=
  let s := pyStripL line.data
  match tryHeadingKw "Clause" s with
  | some g => some g
  | none =>
    match tryHeadingKw "Article" s with
    | some g => some g
    | none => tryHeadingKw "Section" s

/-- The mutable `current` clause accumulator of `extract_clauses`. -/
structure RawClause where
  heading : String
  body : String
  page_start : Nat
  page_end : Nat
  deriving DecidableEq

/-- Segmenter state: the current clause, the closed clauses, and the
index of the next PRNG draw (`round(random.uniform(0.7, 0.99), 2)`). -/
structure CSt where
  current : RawClause
  clauses : List Clause
  k : Nat

/-- Close the current clause if its stripped body exceeds 50 characters:
draw a variance score, threshold it at 0.85 for `is_standard`, and append
the clause. -/
def closeCurrent (rng : Nat → ℚ) (st : CSt) : CSt :=
  if 50 < (pyStrip st.current.body).length then
    let v := rng st.k
    { st with
      clauses := st.clauses ++
        [⟨st.current.heading, st.current.body, st.current.page_start,
          st.current.page_end, v, decide ((17 : ℚ)/20 < v)⟩],
      k := st.k + 1 }
  else st

/-- Process one line of page `pageNo`: a heading line closes the current
clause and opens a new one anchored at this page; any other line is
appended to the body (with a newline) and advances `page_end`. -/
def procLine (rng : Nat → ℚ) (pageNo : Nat) (st : CSt) (line : String) : CSt :=
  match matchHeading line with
  | some (g1, g2, g3) =>
    let st1 := closeCurrent rng st
    { st1 with current := ⟨g1 ++ " " ++ g2 ++ " " ++ pyStrip g3, "", pageNo, pageNo⟩ }
  | none =>
    { st with current := { st.current with
        body := st.current.body ++ line ++ "\n",
        page_end := pageNo } }

/-- Process all lines of one page. -/
def procPage (rng : Nat → ℚ) (st : CSt) (p : Page) : CSt :=
  (pySplitlines p.text).foldl (procLine rng p.page) st

/-- `LegalExtractor.extract_clauses`: single pass over the pages' lines
starting from the `Preamble` accumulator, closing the trailing clause,
then discarding clauses whose stripped body has at most 80 characters. -/
def extract_clauses (pages : List Page) (rng : Nat → ℚ) : List Clause :=
  let st := pages.foldl (procPage rng) ⟨⟨"Preamble", "", 1, 1⟩, [], 0⟩
  let st1 := closeCurrent rng st
  st1.clauses.filter (fun c => 80 < (pyStrip c.body).length)

/-! ## Citations (`generate_citations` and `_get_confidence`) -/

/-- `LegalExtractor._get_confidence`: zero for empty text, a draw from
[0.95, 0.99] (`hi`) when the keyword occurs in the first line of the
text, a draw from [0.85, 0.94] (`med`) when it occurs anywhere in the
text, zero otherwise. -/
def getConfidence (kw text : String) (hi med : ℚ) : ℚ :=
  if text = "" then 0
  else if containsCI kw (pyFirstLine text) then hi
  else if containsCI kw text then med
  else 0

/-- The citation match test: keyword in the clause heading or in the
first 500 characters of its body (case-insensitive). -/
def matchesKw (kw : String) (c : Clause) : Bool :=
  containsCI kw c.heading || containsCI kw (strTakeStr 500 c.body)

/-- The fixed citation keyword list. -/
def kwList : List String :=
  ["Governing Law", "Assignment", "Transfer", "Financial Covenant",
   "Event of Default", "ESG", "Sustainability", "Margin", "Interest"]

/-- One keyword step of `generate_citations`: cite the first clause (in
clause order) matching the keyword, with confidence computed by
`_get_confidence` on the full clause body (streams `rhi`/`rmed`, one
position per emitted citation). -/
def citStep (clauses : List Clause) (rhi rmed : Nat → ℚ)
    (acc : List Citation × Nat) (kw : String) : List Citation × Nat :=
  match clauses.find? (matchesKw kw) with
  | some c =>
    (acc.1 ++ [⟨kw, c.heading, c.page_start, c.page_end,
               getConfidence kw c.body (rhi acc.2) (rmed acc.2)⟩], acc.2 + 1)
  | none => acc

/-- `LegalExtractor.generate_citations`. -/
def generate_citations (clauses : List Clause) (rhi rmed : Nat → ℚ) : List Citation :=
  (kwList.foldl (citStep clauses rhi rmed) ([], 0)).1

/-! ## Document loading (`load_document`)

Opening the PDF is an external call: its outcome is an `Except` input —
`.error` when no candidate path resolves or the file is not a valid PDF
(`fitz.open` raises), `.ok` with the per-page data otherwise.  The
enclosing `try`/`except` of the source catches every exception, prints,
stores the message in `full_text` and returns `self`, so the embedding
always returns `.ok`. -/

/-- Per-page input data: the native text layer, the embedded images and
page rectangle (for `is_scanned_page`), and the OCR backend behaviour
(for `process_page_image`). -/
structure RawPage where
  text : String
  images : List ImgInfo
  pageW : ℚ
  pageH : ℚ
  ocr : OcrAttempts

/-- The extractor fields written by `load_document`. -/
structure ExtractorState where
  full_text : String
  pages : List Page
  ocr_pages : List Nat
  tables : List Table
  deriving DecidableEq

/-- The freshly-constructed extractor (`__init__`). -/
def initState : ExtractorState := ⟨"", [], [], []⟩

/-- The body of the page loop of `load_document` for page number `i`:
route scanned pages through OCR, replace still-empty short text by the
`OCR REQUIRED` placeholder (recording the page in `ocr_pages`, possibly a
second time), and append the page and its text. -/
def processLoadedPage (st : ExtractorState) (i : Nat) (rp : RawPage) : ExtractorState :=
  let scanned := is_scanned_page rp.text rp.images rp.pageW rp.pageH
  let ocr1 := if scanned then st.ocr_pages ++ [i] else st.ocr_pages
  let t0 := if scanned then (process_page_image rp.ocr i).text else rp.text
  let needsMark := pyStrip t0 = "" ∧ t0.length < 10
  let t := if needsMark then
      "[OCR REQUIRED: Page " ++ toString i ++ " appears to be an image]"
    else t0
  let ocr2 := if needsMark then ocr1 ++ [i] else ocr1
  { st with
    pages := st.pages ++ [⟨i, t, ocr2.contains i⟩],
    ocr_pages := ocr2,
    full_text := st.full_text ++ t ++ "\n" }

/-- `LegalExtractor.load_document`.  `tables` is the outcome of
`TableExtractor.extract_tables()` on the opened document.  The function
never propagates an error: on an open failure it returns the initial
state with the error message as `full_text`. -/
def load_document (openResult : Except String (List RawPage)) (tables : List Table) :
    Except String ExtractorState :=
  Except.ok (match openResult with
    | .error e => { initState with full_text := "Error loading document: " ++ e }
    | .ok rps =>
      let st := (rps.foldl (fun (acc : ExtractorState × Nat) rp =>
        (processLoadedPage acc.1 acc.2 rp, acc.2 + 1)) (initState, 1)).1
      { st with tables := tables })

/-! ## DLR assembly (`build_dlr`, structured-data portion)

`build_dlr` merges the component outputs into the DLR record.  The
embedding covers its structured collections (facilities with the
synthetic-fallback rule, covenants, obligations, events of default,
citations) plus the clause list it returns alongside; the scalar metadata
fields are pass-throughs of `extract_metadata` values that the claims do
not touch. -/

/-- The document-derived signals consumed by the embedded components: all
of them are deterministic functions of the document bytes (regex search
results, table data, currency flags).  In regex-only mode
`aiCommitment = none`. -/
structure DocSignals where
  pages : List Page
  tables : List Table
  facA : Bool
  facB : Bool
  facR : Bool
  gbpEarly : Bool
  aiCommitment : Option ℚ
  amt1 : Option ℚ
  amt2 : Option (ℚ × Option String)
  levMatch : Option String
  icrMatch : Option String
  eod0 : Bool
  eod1 : Bool
  eod2 : Bool
  eod3 : Bool
  eod4 : Bool
  eod5 : Bool
  ob0 : Option String
  ob1 : Option String
  ob2 : Option String
  ob3 : Option String
  facilityType : String
  currency : String

/-- The PRNG draw streams consumed by the components
(`random.uniform` values, already rounded as the source rounds them). -/
structure Rand where
  clauseDraw : Nat → ℚ
  facDraw : Nat → ℚ
  obligDraw : Nat → ℚ
  citHi : Nat → ℚ
  citMed : Nat → ℚ

/-- The structured-data portion of the DLR built by `build_dlr`. -/
structure DLRpart where
  facilities : List Facility
  covenants : List Covenant
  obligations : List Obligation
  events_of_default : List EventOfDefault
  citations : List Citation
  clauses : List Clause
  deriving DecidableEq

/-- The structured-data assembly of `build_dlr`. -/
def build_dlr_core (d : DocSignals) (r : Rand) : DLRpart :=
  let clauses := extract_clauses d.pages r.clauseDraw
  { facilities :=
      dlrFacilities (extract_facilities d.tables d.facA d.facB d.facR d.gbpEarly r.facDraw)
        (extractCommitment d.aiCommitment d.amt1 d.amt2) d.facilityType d.currency,
    covenants := extract_covenants d.levMatch d.icrMatch,
    obligations := extract_obligations d.ob0 d.ob1 d.ob2 d.ob3 r.obligDraw,
    events_of_default := build_events_of_default d.eod0 d.eod1 d.eod2 d.eod3 d.eod4 d.eod5,
    citations := generate_citations clauses r.citHi r.citMed,
    clauses := clauses }

/-! ## PRNG-independent projections (used for the determinism claim) -/

/-- The PRNG-independent part of a clause. -/
def projClause (c : Clause) : String × String × Nat × Nat :=
  (c.heading, c.body, c.page_start, c.page_end)

/-- The PRNG-independent part of a facility. -/
def projFac (f : Facility) : String × Option String × ℚ × String :=
  (f.name, f.ftype, f.amount, f.currency)

/-- The PRNG-independent part of an obligation. -/
def projOb (o : Obligation) : String × String × String × String × String × Bool :=
  (o.role, o.title, o.details, o.due_hint, o.status, o.is_esg)

/-- The PRNG-independent part of a citation. -/
def projCit (ct : Citation) : String × String × Nat × Nat :=
  (ct.keyword, ct.clause, ct.page_start, ct.page_end)

/-- The DLR with every PRNG-drawn field projected away. -/
def stripDLR (d : DLRpart) :=
  (d.facilities.map projFac, d.covenants, d.obligations.map projOb,
   d.events_of_default, d.citations.map projCit, d.clauses.map projClause)

/-! ## Claim C8: scanned-page classification -/

/-- Claim C8, counterexample.  An image whose dimensions are exactly 80%
of the page (80×80 on a 100×100 page) covers at least 80% of both
dimensions, so the claim classifies the page (whose text is 60
characters) as scanned; `is_scanned_page` uses a strict comparison and
returns `false`. -/
theorem c8_scanned_counterexample :
    spec_is_scanned (String.mk (List.replicate 60 'x')) [⟨true, 80, 80⟩] 100 100 ∧
    is_scanned_page (String.mk (List.replicate 60 'x')) [⟨true, 80, 80⟩] 100 100 = false := by
  constructor
  · exact Or.inr ⟨⟨true, 80, 80⟩, by simp, by norm_num, by norm_num⟩
  · have h80 : ¬ ((100 : ℚ) * (4/5) < 80) := by norm_num
    have hlen : ¬ ((pyStrip (String.mk (List.replicate 60 'x'))).length < 50) := by decide
    unfold is_scanned_page
    rw [if_neg (fun hc => hlen hc.1)]
    simp [h80]

/-- Claim C8, amended: `is_scanned_page` returns true exactly when the
stripped text is below 50 characters and the page has at least one
embedded image, or some image whose metadata extraction succeeds has
dimensions strictly greater than 80% of both the page's width and height;
in particular a page with 10 characters of text and one image covering
95% of the page is classified as scanned. -/
theorem c8_scanned_amended :
    (∀ (text : String) (imgs : List ImgInfo) (pw ph : ℚ),
      is_scanned_page text imgs pw ph = true ↔
        (((pyStrip text).length < 50 ∧ imgs ≠ []) ∨
          ∃ im ∈ imgs, im.extractOk = true ∧ pw * (4/5) < im.width ∧ ph * (4/5) < im.height)) ∧
    is_scanned_page "ten chars!" [⟨true, 95, 95⟩] 100 100 = true := by
  refine ⟨?_, ?_⟩
  case refine_2 =>
    unfold is_scanned_page
    rw [if_pos ⟨by decide, by decide⟩]
  intro text imgs pw ph
  unfold is_scanned_page
  split
  · rename_i h
    simp only [true_iff]
    refine Or.inl ⟨h.1, ?_⟩
    cases imgs with
    | nil => simp at h
    | cons a t => simp
  · rename_i h
    rw [List.any_eq_true]
    constructor
    · rintro ⟨im, him, hc⟩
      simp only [Bool.and_eq_true, decide_eq_true_eq] at hc
      exact Or.inr ⟨im, him, hc.1.1, hc.1.2, hc.2⟩
    · rintro (⟨h1, h2⟩ | ⟨im, him, h1, h2, h3⟩)
      · refine absurd ⟨h1, ?_⟩ h
        cases imgs with
        | nil => exact absurd rfl h2
        | cons a t => simp
      · exact ⟨im, him, by simp [h1, h2, h3]⟩

/-- Claim C8, witness: the amended equivalence evaluated on the spec's
scenario page (10 characters of text, one successfully extracted 95×95
image on a 100×100 page). -/
theorem c8_scanned_witness :
    is_scanned_page "ten chars!" [⟨true, 95, 95⟩] 100 100 = true ∧
    (is_scanned_page "ten chars!" [⟨true, 95, 95⟩] 100 100 = true ↔
      (((pyStrip "ten chars!").length < 50 ∧ ([⟨true, 95, 95⟩] : List ImgInfo) ≠ []) ∨
        ∃ im ∈ ([⟨true, 95, 95⟩] : List ImgInfo),
          im.extractOk = true ∧ 100 * (4/5) < im.width ∧ 100 * (4/5) < im.height)) :=
  ⟨c8_scanned_amended.2, c8_scanned_amended.1 "ten chars!" [⟨true, 95, 95⟩] 100 100⟩

/-! ## Claim C10: events of default -/

/-- Evaluation of `eodEntry` for the Non-Payment trigger. -/
lemma eodEntry_nonpayment :
    eodEntry "Non-Payment" "3 Business Days" =
      ⟨"Non-Payment", "None", "3 Business Days", some (9/10)⟩ := rfl

/-- Evaluation of `eodEntry` for the Breach of Covenant trigger (the only
trigger whose lower-cased name contains `breach`, hence notice
`Required`). -/
lemma eodEntry_breach :
    eodEntry "Breach of Covenant" "30 days (if curable)" =
      ⟨"Breach of Covenant", "Required", "30 days (if curable)", some (9/10)⟩ := rfl

/-- Evaluation of `eodEntry` for the Cross-Default trigger. -/
lemma eodEntry_cross :
    eodEntry "Cross-Default" "None" = ⟨"Cross-Default", "None", "None", some (9/10)⟩ := rfl

/-- Evaluation of `eodEntry` for the Insolvency trigger. -/
lemma eodEntry_insolvency :
    eodEntry "Insolvency" "None" = ⟨"Insolvency", "None", "None", some (9/10)⟩ := rfl

/-- Evaluation of `eodEntry` for the Material Adverse Change trigger. -/
lemma eodEntry_mac :
    eodEntry "Material Adverse Change" "Immediate" =
      ⟨"Material Adverse Change", "None", "Immediate", some (9/10)⟩ := rfl

/-- Evaluation of `eodEntry` for the Misrepresentation trigger. -/
lemma eodEntry_misrep :
    eodEntry "Misrepresentation" "None" =
      ⟨"Misrepresentation", "None", "None", some (9/10)⟩ := rfl

/-- Claim C10: the events-of-default list is never empty; each of the six
trigger patterns found contributes exactly one entry with its standard
notice and grace period (confidence 0.90); when no pattern matches,
exactly the three hard-coded default entries (Non-Payment, Breach of
Covenant, Cross-Default) are emitted. -/
theorem c10_events_of_default :
    ∀ m0 m1 m2 m3 m4 m5 : Bool,
      build_events_of_default m0 m1 m2 m3 m4 m5 ≠ [] ∧
      ((m0 || m1 || m2 || m3 || m4 || m5) = false →
        build_events_of_default m0 m1 m2 m3 m4 m5 =
          [⟨"Non-Payment", "None", "3 Business Days", none⟩,
           ⟨"Breach of Covenant", "Required", "30 days (if curable)", none⟩,
           ⟨"Cross-Default", "Required", "None", none⟩]) ∧
      ((m0 || m1 || m2 || m3 || m4 || m5) = true →
        (build_events_of_default m0 m1 m2 m3 m4 m5).length =
          (cond m0 1 0) + (cond m1 1 0) + (cond m2 1 0) +
          (cond m3 1 0) + (cond m4 1 0) + (cond m5 1 0)) ∧
      (m0 = true → (⟨"Non-Payment", "None", "3 Business Days", some (9/10)⟩ : EventOfDefault)
        ∈ build_events_of_default m0 m1 m2 m3 m4 m5) ∧
      (m1 = true → (⟨"Breach of Covenant", "Required", "30 days (if curable)", some (9/10)⟩ : EventOfDefault)
        ∈ build_events_of_default m0 m1 m2 m3 m4 m5) ∧
      (m2 = true → (⟨"Cross-Default", "None", "None", some (9/10)⟩ : EventOfDefault)
        ∈ build_events_of_default m0 m1 m2 m3 m4 m5) ∧
      (m3 = true → (⟨"Insolvency", "None", "None", some (9/10)⟩ : EventOfDefault)
        ∈ build_events_of_default m0 m1 m2 m3 m4 m5) ∧
      (m4 = true → (⟨"Material Adverse Change", "None", "Immediate", some (9/10)⟩ : EventOfDefault)
        ∈ build_events_of_default m0 m1 m2 m3 m4 m5) ∧
      (m5 = true → (⟨"Misrepresentation", "None", "None", some (9/10)⟩ : EventOfDefault)
        ∈ build_events_of_default m0 m1 m2 m3 m4 m5) := by
  intro m0 m1 m2 m3 m4 m5
  cases m0 <;> cases m1 <;> cases m2 <;> cases m3 <;> cases m4 <;> cases m5 <;>
    simp [build_events_of_default, defaultEvents, eodEntry_nonpayment, eodEntry_breach,
          eodEntry_cross, eodEntry_insolvency, eodEntry_mac, eodEntry_misrep]

/-- Claim C10, witness: the theorem applied to a document matching no
trigger pattern (three defaults) and to one matching only Non-Payment. -/
theorem c10_events_witness :
    build_events_of_default false false false false false false =
      [⟨"Non-Payment", "None", "3 Business Days", none⟩,
       ⟨"Breach of Covenant", "Required", "30 days (if curable)", none⟩,
       ⟨"Cross-Default", "Required", "None", none⟩] ∧
    build_events_of_default true false false false false false ≠ [] ∧
    (⟨"Non-Payment", "None", "3 Business Days", some (9/10)⟩ : EventOfDefault)
      ∈ build_events_of_default true false false false false false :=
  ⟨(c10_events_of_default false false false false false false).2.1 rfl,
   (c10_events_of_default true false false false false false).1,
   (c10_events_of_default true false false false false false).2.2.2.1 rfl⟩

/-! ## Claim C9: covenants -/

/-- Claim C9: `extract_covenants` always returns exactly two covenants,
`Leverage Ratio` then `Interest Coverage Ratio`; a matched pattern yields
a text-derived threshold with confidence 0.96 and a current value at a
fixed multiplier of the threshold (0.8× resp. 1.4×, rounded to one
decimal); an unmatched pattern yields the synthetic default covenant
(`< 4.0x` resp. `> 3.0x`, confidence 0.90). -/
theorem c9_covenants :
    ∀ lev icr : Option String,
      (extract_covenants lev icr).length = 2 ∧
      (extract_covenants lev icr).map Covenant.name =
        ["Leverage Ratio", "Interest Coverage Ratio"] ∧
      (∀ c ∈ extract_covenants lev icr, c.ctype = "Financial" ∧ c.test_frequency = "Quarterly") ∧
      (lev = none → (extract_covenants lev icr).head? =
        some ⟨"Financial", "Leverage Ratio", "< 4.0x", 14/5, 30, "Quarterly", 9/10⟩) ∧
      (∀ s, lev = some s → (extract_covenants lev icr).head? =
        some ⟨"Financial", "Leverage Ratio", "< " ++ s ++ "x",
              pyRound1 (parseDec s * (4/5)), 20, "Quarterly", 24/25⟩) ∧
      (icr = none → (extract_covenants lev icr).getLast? =
        some ⟨"Financial", "Interest Coverage Ratio", "> 3.0x", 21/5, 40, "Quarterly", 9/10⟩) ∧
      (∀ s, icr = some s → (extract_covenants lev icr).getLast? =
        some ⟨"Financial", "Interest Coverage Ratio", "> " ++ s ++ "x",
              pyRound1 (parseDec s * (7/5)), 40, "Quarterly", 24/25⟩) := by
  intro lev icr
  cases lev <;> cases icr <;> simp [extract_covenants]

/-- Claim C9, witness: a document whose leverage pattern captured `4.5`
and whose interest-coverage pattern found nothing. -/
theorem c9_covenants_witness :
    (extract_covenants (some "4.5") none).length = 2 ∧
    (extract_covenants (some "4.5") none).head? =
      some ⟨"Financial", "Leverage Ratio", "< 4.5x",
            pyRound1 (parseDec "4.5" * (4/5)), 20, "Quarterly", 24/25⟩ ∧
    (extract_covenants (some "4.5") none).getLast? =
      some ⟨"Financial", "Interest Coverage Ratio", "> 3.0x", 21/5, 40, "Quarterly", 9/10⟩ :=
  ⟨(c9_covenants (some "4.5") none).1,
   (c9_covenants (some "4.5") none).2.2.2.2.1 "4.5" rfl,
   (c9_covenants (some "4.5") none).2.2.2.2.2.1 rfl⟩

/-! ## Claim C5: total-commitment default -/

/-- Claim C5, counterexample.  With no AI backend and no amount pattern
matching (e.g. an empty document), the extracted total commitment is
`None` — not the claimed synthetic 350,000,000 — and no synthetic
facility is created from it. -/
theorem c5_commitment_default_counterexample :
    extractCommitment none none none = none ∧
    extractCommitment none none none ≠ some 350000000 ∧
    dlrFacilities [] (extractCommitment none none none) "Term Loan" "USD" = [] := by
  decide

/-- Claim C5, amended: the extractor has no synthetic commitment default —
`total_commitment` is `None` exactly when the AI value is absent or zero
and neither amount regex matched, and in that case no synthetic facility
is created (the 350,000,000 default exists only in downstream routers,
not in `extract_metadata`/`build_dlr`). -/
theorem c5_commitment_none_amended :
    ∀ (ai m1 : Option ℚ) (m2 : Option (ℚ × Option String)) (ft cur : String),
      (extractCommitment ai m1 m2 = none ↔
        ((ai = none ∨ ai = some 0) ∧ m1 = none ∧ m2 = none)) ∧
      (extractCommitment ai m1 m2 = none →
        dlrFacilities [] (extractCommitment ai m1 m2) ft cur = []) := by
  intro ai m1 m2 ft cur
  constructor
  · cases ai with
    | none =>
      cases m1 with
      | none =>
        cases m2 with
        | none => simp [extractCommitment]
        | some p => simp [extractCommitment]
      | some a => simp [extractCommitment]
    | some a =>
      by_cases ha : a = 0
      · subst ha
        cases m1 with
        | none =>
          cases m2 with
          | none => simp [extractCommitment]
          | some p => simp [extractCommitment]
        | some b => simp [extractCommitment]
      · cases m1 with
        | none =>
          cases m2 with
          | none => simp [extractCommitment, ha]
          | some p => simp [extractCommitment, ha]
        | some b => simp [extractCommitment, ha]
  · intro h
    rw [h]
    simp [dlrFacilities, commitmentTruthy]

/-- Claim C5, witness: the amended statement evaluated in regex-only mode
on a document with no amount matches. -/
theorem c5_commitment_witness :
    (extractCommitment none none none = none ↔
      (((none : Option ℚ) = none ∨ (none : Option ℚ) = some 0) ∧
        (none : Option ℚ) = none ∧ (none : Option (ℚ × Option String)) = none)) ∧
    dlrFacilities [] (extractCommitment none none none) "Term Loan" "USD" = [] :=
  ⟨(c5_commitment_none_amended none none none "Term Loan" "USD").1,
   (c5_commitment_none_amended none none none "Term Loan" "USD").2 (by decide)⟩

/-! ## Claim C1: facilities non-emptiness -/

/-- A document in regex-only mode with no tables, no facility pattern
matches, no amount matches and no covenant/obligation/trigger matches. -/
def c1doc : DocSignals :=
  { pages := [], tables := [], facA := false, facB := false, facR := false,
    gbpEarly := false, aiCommitment := none, amt1 := none, amt2 := none,
    levMatch := none, icrMatch := none,
    eod0 := false, eod1 := false, eod2 := false, eod3 := false, eod4 := false, eod5 := false,
    ob0 := none, ob1 := none, ob2 := none, ob3 := none,
    facilityType := "Term Loan", currency := "USD" }

/-- Claim C1, counterexample.  For a document where the facility
table/regex extraction finds nothing and no total commitment is
extracted, `build_dlr` produces an empty facilities list — the synthetic
fallback is guarded by a truthy `total_commitment` and is not added, so
`len(dlr.facilities) >= 1` does not hold unconditionally. -/
theorem c1_facilities_empty_counterexample :
    (build_dlr_core c1doc
      ⟨fun _ => 9/10, fun _ => 9/10, fun _ => 93/100, fun _ => 24/25, fun _ => 9/10⟩).facilities
      = [] ∧
    ¬ 1 ≤ (build_dlr_core c1doc
      ⟨fun _ => 9/10, fun _ => 9/10, fun _ => 93/100, fun _ => 24/25, fun _ => 9/10⟩).facilities.length := by
  decide

/-- Claim C1, amended: the DLR's facilities list is non-empty iff the
table/regex facility extraction found at least one facility or the
extracted total commitment is truthy (present and non-zero); the
synthetic fallback facility is added only in the latter case, so a
document with neither yields an empty facilities list. -/
theorem c1_facilities_nonempty_amended :
    ∀ (extracted : List Facility) (commitment : Option ℚ) (ft cur : String),
      dlrFacilities extracted commitment ft cur ≠ [] ↔
        (extracted ≠ [] ∨ commitmentTruthy commitment = true) := by
  intro extracted commitment ft cur
  unfold dlrFacilities
  split
  · rename_i h
    constructor
    · intro _
      exact Or.inr h.2
    · intro _
      exact List.cons_ne_nil _ _
  · rename_i h
    constructor
    · intro hne
      exact Or.inl hne
    · rintro (hne | htr)
      · exact hne
      · intro hnil
        subst hnil
        exact h ⟨by simp, htr⟩

/-- Claim C1, witness: with nothing extracted a truthy commitment yields
the synthetic facility (non-empty), while no commitment yields an empty
list. -/
theorem c1_facilities_witness :
    dlrFacilities [] (some 350000000) "Term Loan" "USD" ≠ [] ∧
    dlrFacilities [] none "Term Loan" "USD" = [] := by
  constructor
  · exact (c1_facilities_nonempty_amended [] (some 350000000) "Term Loan" "USD").mpr
      (Or.inr (by decide))
  · by_contra hne
    rcases (c1_facilities_nonempty_amended [] none "Term Loan" "USD").mp hne with h | h
    · exact h rfl
    · exact absurd h (by decide)

/-! ## Claim C2: document-open failures -/

/-- Claim C2, counterexample.  When the document cannot be opened (no
candidate path exists or the file is not a valid PDF), `load_document`
does not propagate any error: the exception is caught and the method
returns normally with the error message stored as the document text. -/
theorem c2_load_error_counterexample :
    load_document (.error "cannot open document.pdf") [] =
      .ok { full_text := "Error loading document: cannot open document.pdf",
            pages := [], ocr_pages := [], tables := [] } := rfl

/-- Claim C2, amended: `load_document` never raises — every failure,
including an unopenable or invalid PDF, is caught; on an open failure it
returns a degraded state whose `full_text` is the error message (with
empty pages/tables), and extraction proceeds on that state. -/
theorem c2_load_graceful_amended :
    ∀ (o : Except String (List RawPage)) (tbls : List Table),
      (∃ st, load_document o tbls = .ok st) ∧
      (∀ e, o = .error e →
        load_document o tbls =
          .ok { initState with full_text := "Error loading document: " ++ e }) := by
  intro o tbls
  refine ⟨⟨_, rfl⟩, ?_⟩
  rintro e rfl
  rfl

/-- Claim C2, witness: the amended statement at a concrete open failure. -/
theorem c2_load_graceful_witness :
    load_document (.error "missing.pdf") [] =
      .ok { initState with full_text := "Error loading document: missing.pdf" } :=
  (c2_load_graceful_amended (.error "missing.pdf") []).2 "missing.pdf" rfl

/-! ## Claim C7: OCR fallback chain -/

/-- EasyOCR produced text only if the library was importable. -/
lemma easyOut_available {a : OcrAttempts} {s : String} (h : easyOut a = some s) :
    a.easyAvailable = true := by
  unfold easyOut at h
  cases hA : a.easyAvailable
  · rw [hA] at h; simp at h
  · rfl

/-- Tesseract produced text only if the library was importable. -/
lemma tessOut_available {a : OcrAttempts} {s : String} (h : tessOut a = some s) :
    a.tessAvailable = true := by
  unfold tessOut at h
  cases hA : a.tessAvailable
  · rw [hA] at h; simp at h
  · rfl

/-- The Groq branch produced text only if a client was configured. -/
lemma groqOut_configured {a : OcrAttempts} {n : Nat} {s : String}
    (h : groqOut a n = some s) : a.groqConfigured = true := by
  unfold groqOut at h
  cases hG : a.groqConfigured
  · rw [hG] at h; simp at h
  · rfl

/-- The Groq branch produces nothing exactly when no client is
configured (a configured client always returns a string, even on an
exception). -/
lemma groqOut_none_iff {a : OcrAttempts} {n : Nat} :
    groqOut a n = none ↔ a.groqConfigured = false := by
  unfold groqOut
  cases hG : a.groqConfigured <;> simp

/-- `process_page_image` when EasyOCR succeeds. -/
lemma ppi_easy {a : OcrAttempts} {n : Nat} {s : String} (h : easyOut a = some s) :
    process_page_image a n = ⟨s, [.easyocr], some .easyocr⟩ := by
  simp [process_page_image, h, easyOut_available h]

/-- `process_page_image` when EasyOCR produces nothing and Tesseract
succeeds. -/
lemma ppi_tess {a : OcrAttempts} {n : Nat} {s : String}
    (h1 : easyOut a = none) (h2 : tessOut a = some s) :
    process_page_image a n =
      ⟨s, (if a.easyAvailable then [.easyocr] else []) ++ [.tesseract], some .tesseract⟩ := by
  simp [process_page_image, h1, h2, tessOut_available h2]

/-- `process_page_image` when only the Groq fallback produces text. -/
lemma ppi_groq {a : OcrAttempts} {n : Nat} {s : String}
    (h1 : easyOut a = none) (h2 : tessOut a = none) (h3 : groqOut a n = some s) :
    process_page_image a n =
      ⟨s, (if a.easyAvailable then [.easyocr] else []) ++
          (if a.tessAvailable then [.tesseract] else []) ++ [.groq], some .groq⟩ := by
  simp [process_page_image, h1, h2, h3, groqOut_configured h3]

/-- `process_page_image` when every backend is unavailable or failed. -/
lemma ppi_none {a : OcrAttempts} {n : Nat}
    (h1 : easyOut a = none) (h2 : tessOut a = none) (h3 : groqOut a n = none) :
    process_page_image a n =
      ⟨ocrPlaceholder n,
       (if a.easyAvailable then [.easyocr] else []) ++
       (if a.tessAvailable then [.tesseract] else []) ++
       (if a.groqConfigured then [.groq] else []), none⟩ := by
  simp [process_page_image, h1, h2, h3]

/-- The consultation list is always an ordered duplicate-free
subsequence of EasyOCR, Tesseract, Groq. -/
lemma attempts_sub (b1 b2 b3 : Bool) :
    ((if b1 then [Backend.easyocr] else []) ++ (if b2 then [Backend.tesseract] else []) ++
      (if b3 then [Backend.groq] else [])).Sublist
      [Backend.easyocr, Backend.tesseract, Backend.groq] := by
  cases b1 <;> cases b2 <;> cases b3 <;> decide

/-- Consultation order when Tesseract answers. -/
lemma attempts_sub2 (b1 : Bool) :
    ((if b1 then [Backend.easyocr] else []) ++ [Backend.tesseract]).Sublist
      [Backend.easyocr, Backend.tesseract, Backend.groq] := by
  cases b1 <;> decide

/-- Consultation order when the Groq fallback answers. -/
lemma attempts_sub3 (b1 b2 : Bool) :
    ((if b1 then [Backend.easyocr] else []) ++ (if b2 then [Backend.tesseract] else []) ++
      [Backend.groq]).Sublist [Backend.easyocr, Backend.tesseract, Backend.groq] := by
  cases b1 <;> cases b2 <;> decide

/-- Tesseract appears exactly once in its consultation list. -/
lemma attempts_count2 (b1 : Bool) :
    ((if b1 then [Backend.easyocr] else []) ++ [Backend.tesseract]).count Backend.tesseract
      = 1 := by
  cases b1 <;> decide

/-- Groq appears exactly once in its consultation list. -/
lemma attempts_count3 (b1 b2 : Bool) :
    ((if b1 then [Backend.easyocr] else []) ++ (if b2 then [Backend.tesseract] else []) ++
      [Backend.groq]).count Backend.groq = 1 := by
  cases b1 <;> cases b2 <;> decide

/-- Claim C7: per page, the OCR engine consults the backends in the fixed
order EasyOCR, Tesseract, Groq, each at most once (the consultation list
is a subsequence of that order); text comes from the first backend that
produces it; and the literal placeholder naming the page is emitted
exactly when EasyOCR and Tesseract are unavailable or fail and no Groq
client is configured. -/
theorem c7_ocr_chain :
    ∀ (a : OcrAttempts) (n : Nat),
      (process_page_image a n).attempts.Sublist
        [Backend.easyocr, Backend.tesseract, Backend.groq] ∧
      ((process_page_image a n).producedBy = none ↔
        (easyOut a = none ∧ tessOut a = none ∧ a.groqConfigured = false)) ∧
      ((process_page_image a n).producedBy = none →
        (process_page_image a n).text = ocrPlaceholder n) ∧
      (∀ s, easyOut a = some s →
        process_page_image a n = ⟨s, [Backend.easyocr], some Backend.easyocr⟩) ∧
      (∀ s, easyOut a = none → tessOut a = some s →
        (process_page_image a n).text = s ∧
        (process_page_image a n).producedBy = some Backend.tesseract ∧
        (process_page_image a n).attempts.count Backend.tesseract = 1) ∧
      (∀ s, easyOut a = none → tessOut a = none → groqOut a n = some s →
        (process_page_image a n).text = s ∧
        (process_page_image a n).producedBy = some Backend.groq ∧
        (process_page_image a n).attempts.count Backend.groq = 1) := by
  intro a n
  cases hE : easyOut a with
  | some s =>
    rw [ppi_easy hE]
    refine ⟨?_, by simp, by simp, ?_, ?_, ?_⟩
    · show List.Sublist [Backend.easyocr] _
      decide
    · intro s' h'
      injection h' with h''
      rw [h'']
    · intro s' h' _
      exact Option.noConfusion h'
    · intro s' h' _ _
      exact Option.noConfusion h'
  | none =>
    cases hT : tessOut a with
    | some s =>
      rw [ppi_tess hE hT]
      refine ⟨?_, by simp, by simp, ?_, ?_, ?_⟩
      · show (((if a.easyAvailable then [Backend.easyocr] else []) ++
          [Backend.tesseract])).Sublist _
        exact attempts_sub2 a.easyAvailable
      · intro s' h'
        exact Option.noConfusion h'
      · intro s' _ h'
        injection h' with h''
        exact ⟨h''.symm ▸ rfl, rfl, attempts_count2 a.easyAvailable⟩
      · intro s' _ h' _
        exact Option.noConfusion h'
    | none =>
      cases hG : groqOut a n with
      | some s =>
        rw [ppi_groq hE hT hG]
        have hg := groqOut_configured hG
        refine ⟨?_, by simp [hg], by simp, ?_, ?_, ?_⟩
        · show (((if a.easyAvailable then [Backend.easyocr] else []) ++
            (if a.tessAvailable then [Backend.tesseract] else []) ++
            [Backend.groq])).Sublist _
          exact attempts_sub3 a.easyAvailable a.tessAvailable
        · intro s' h'
          exact Option.noConfusion h'
        · intro s' _ h'
          exact Option.noConfusion h'
        · intro s' _ _ h'
          injection h' with h''
          exact ⟨h''.symm ▸ rfl, rfl, attempts_count3 a.easyAvailable a.tessAvailable⟩
      | none =>
        rw [ppi_none hE hT hG]
        have hg := groqOut_none_iff.mp hG
        refine ⟨?_, by simp [hg], by simp, ?_, ?_, ?_⟩
        · exact attempts_sub _ _ _
        · intro s' h'
          exact Option.noConfusion h'
        · intro s' _ h'
          exact Option.noConfusion h'
        · intro s' _ _ h'
          exact Option.noConfusion h'

/-- A page whose EasyOCR run raised no exception but recognised nothing,
whose Tesseract run produced text, and with no Groq client. -/
def c7att : OcrAttempts := ⟨true, some [], true, some "recovered text", false, .error "offline"⟩

/-- Claim C7, witness: on a page where EasyOCR fails (empty result) and
Tesseract succeeds, the engine returns the Tesseract text, attributed to
Tesseract, having consulted it exactly once. -/
theorem c7_ocr_chain_witness :
    (process_page_image c7att 5).text = "recovered text" ∧
    (process_page_image c7att 5).producedBy = some Backend.tesseract ∧
    (process_page_image c7att 5).attempts.count Backend.tesseract = 1 :=
  (c7_ocr_chain c7att 5).2.2.2.2.1 "recovered text" rfl rfl

/-! ## Claim C6: clause invariants -/

/-- Segmenter-state invariant while processing lines of page `n`: the
current clause's anchors are ordered, its start does not exceed the page
being processed, and every closed clause has ordered anchors. -/
def CInv (n : Nat) (st : CSt) : Prop :=
  st.current.page_start ≤ st.current.page_end ∧ st.current.page_start ≤ n ∧
  ∀ c ∈ st.clauses, c.page_start ≤ c.page_end

/-- Closing the current clause preserves the invariant. -/
lemma closeCurrent_CInv (rng : Nat → ℚ) {n : Nat} {st : CSt} (h : CInv n st) :
    CInv n (closeCurrent rng st) := by
  unfold closeCurrent
  split
  · refine ⟨h.1, h.2.1, ?_⟩
    intro c hc
    rcases List.mem_append.mp hc with hc | hc
    · exact h.2.2 c hc
    · rw [List.mem_singleton.mp hc]
      exact h.1
  · exact h

/-- Processing one line of page `n` preserves the invariant. -/
lemma procLine_CInv {rng : Nat → ℚ} {n : Nat} {st : CSt} {line : String}
    (h : CInv n st) : CInv n (procLine rng n st line) := by
  unfold procLine
  cases hm : matchHeading line with
  | some g =>
    obtain ⟨g1, g2, g3⟩ := g
    exact ⟨le_refl n, le_refl n, (closeCurrent_CInv rng h).2.2⟩
  | none =>
    exact ⟨h.2.1, h.2.1, h.2.2⟩

/-- Processing a list of lines of page `n` preserves the invariant. -/
lemma lines_CInv (rng : Nat → ℚ) (n : Nat) :
    ∀ (lines : List String) (st : CSt), CInv n st →
      CInv n (lines.foldl (procLine rng n) st)
  | [], _, h => h
  | _ :: ls, _, h => lines_CInv rng n ls _ (procLine_CInv h)

/-- Processing a whole page preserves the invariant at that page. -/
lemma procPage_CInv {rng : Nat → ℚ} {st : CSt} {p : Page} (h : CInv p.page st) :
    CInv p.page (procPage rng st p) :=
  lines_CInv rng p.page _ st h

/-- The invariant is monotone in the page bound. -/
lemma CInv_mono {n m : Nat} {st : CSt} (h : CInv n st) (hm : n ≤ m) : CInv m st :=
  ⟨h.1, le_trans h.2.1 hm, h.2.2⟩

/-- Folding the segmenter over pages with nondecreasing page numbers
preserves the invariant at some final page bound. -/
lemma pages_CInv (rng : Nat → ℚ) :
    ∀ (pages : List Page) (st : CSt) (n : Nat), CInv n st →
      (pages.map Page.page).Pairwise (· ≤ ·) → (∀ p ∈ pages, n ≤ p.page) →
      ∃ m, CInv m (pages.foldl (procPage rng) st) := by
  intro pages
  induction pages with
  | nil =>
    intro st n h _ _
    exact ⟨n, h⟩
  | cons p ps ih =>
    intro st n h hpw hge
    simp only [List.foldl_cons]
    have h1 : CInv p.page st := CInv_mono h (hge p (List.mem_cons_self p ps))
    have h2 : CInv p.page (procPage rng st p) := procPage_CInv h1
    rw [List.map_cons, List.pairwise_cons] at hpw
    refine ih _ p.page h2 hpw.2 ?_
    intro q hq
    exact hpw.1 q.page (List.mem_map_of_mem Page.page hq)

/-- The page sequence produced by `load_document`: 1-indexed and
enumerated in order, hence nondecreasing page numbers all at least 1. -/
def PagesOrdered (pages : List Page) : Prop :=
  (pages.map Page.page).Pairwise (· ≤ ·) ∧ ∀ p ∈ pages, 1 ≤ p.page

/-- Claim C6: every clause in the final extracted clause list has
`page_start ≤ page_end`, and its stripped body is strictly longer than
the 80-character noise threshold. -/
theorem c6_clause_invariants :
    ∀ (pages : List Page) (rng : Nat → ℚ),
      PagesOrdered pages →
      ∀ c ∈ extract_clauses pages rng,
        c.page_start ≤ c.page_end ∧ 80 < (pyStrip c.body).length := by
  intro pages rng hord c hc
  simp only [extract_clauses] at hc
  obtain ⟨m, hm⟩ := pages_CInv rng pages ⟨⟨"Preamble", "", 1, 1⟩, [], 0⟩ 1
    ⟨le_refl 1, le_refl 1, by intro c hc; simp at hc⟩ hord.1 hord.2
  have hm2 := closeCurrent_CInv rng hm
  rw [List.mem_filter] at hc
  exact ⟨hm2.2.2 c hc.1, by simpa using hc.2⟩

/-- A one-page document with one heading line and an 85-character body. -/
def c6pages : List Page :=
  [⟨1, "Clause 1 Overview\n" ++ String.mk (List.replicate 85 'B'), false⟩]

/-- Claim C6, witness: the invariant holds on a concrete document whose
extracted clause list is non-empty. -/
theorem c6_clause_invariants_witness :
    PagesOrdered c6pages ∧
    (∀ c ∈ extract_clauses c6pages (fun _ => 9/10),
      c.page_start ≤ c.page_end ∧ 80 < (pyStrip c.body).length) ∧
    extract_clauses c6pages (fun _ => 9/10) ≠ [] := by
  have hord : PagesOrdered c6pages := by
    constructor
    · simp [c6pages]
    · intro p hp
      rw [List.mem_singleton.mp hp]
  exact ⟨hord, c6_clause_invariants c6pages _ hord, by decide⟩

/-! ## Claim C4: citation generation -/

/-- Behaviour of the citation fold over any keyword list: it appends, in
keyword order, at most one citation per keyword, each taken from the
first clause matching that keyword, with the `_get_confidence` value
computed from the clause body (zero when the keyword occurs only in the
heading, i.e. not in the body at all). -/
lemma citfold_spec (clauses : List Clause) (rhi rmed : Nat → ℚ)
    (hHi : ∀ k, 19/20 ≤ rhi k ∧ rhi k ≤ 99/100)
    (hMed : ∀ k, 17/20 ≤ rmed k ∧ rmed k ≤ 47/50) :
    ∀ (kws : List String) (acc : List Citation × Nat),
      ∃ rest, (kws.foldl (citStep clauses rhi rmed) acc).1 = acc.1 ++ rest ∧
        (rest.map Citation.keyword).Sublist kws ∧
        ∀ ct ∈ rest, ∃ c, clauses.find? (matchesKw ct.keyword) = some c ∧
          ct.clause = c.heading ∧ ct.page_start = c.page_start ∧ ct.page_end = c.page_end ∧
          (c.body = "" → ct.confidence = 0) ∧
          (c.body ≠ "" → containsCI ct.keyword (pyFirstLine c.body) = true →
            19/20 ≤ ct.confidence ∧ ct.confidence ≤ 99/100) ∧
          (c.body ≠ "" → containsCI ct.keyword (pyFirstLine c.body) = false →
            containsCI ct.keyword c.body = true →
            17/20 ≤ ct.confidence ∧ ct.confidence ≤ 47/50) ∧
          (c.body ≠ "" → containsCI ct.keyword (pyFirstLine c.body) = false →
            containsCI ct.keyword c.body = false → ct.confidence = 0) := by
  intro kws
  induction kws with
  | nil =>
    intro acc
    exact ⟨[], by simp, List.nil_sublist _, by simp⟩
  | cons kw kws ih =>
    intro acc
    simp only [List.foldl_cons]
    cases hF : clauses.find? (matchesKw kw) with
    | none =>
      have hstep : citStep clauses rhi rmed acc kw = acc := by
        simp [citStep, hF]
      rw [hstep]
      obtain ⟨rest, h1, h2, h3⟩ := ih acc
      exact ⟨rest, h1, h2.cons kw, h3⟩
    | some c =>
      have hstep : citStep clauses rhi rmed acc kw =
          (acc.1 ++ [⟨kw, c.heading, c.page_start, c.page_end,
            getConfidence kw c.body (rhi acc.2) (rmed acc.2)⟩], acc.2 + 1) := by
        simp [citStep, hF]
      rw [hstep]
      obtain ⟨rest, h1, h2, h3⟩ :=
        ih (acc.1 ++ [⟨kw, c.heading, c.page_start, c.page_end,
          getConfidence kw c.body (rhi acc.2) (rmed acc.2)⟩], acc.2 + 1)
      refine ⟨⟨kw, c.heading, c.page_start, c.page_end,
        getConfidence kw c.body (rhi acc.2) (rmed acc.2)⟩ :: rest, ?_, ?_, ?_⟩
      · rw [h1, List.append_assoc, List.singleton_append]
      · exact h2.cons₂ kw
      · intro ct hct
        rcases List.mem_cons.mp hct with hct | hct
        · subst hct
          refine ⟨c, hF, rfl, rfl, rfl, ?_, ?_, ?_, ?_⟩
          · intro hb
            simp [getConfidence, hb]
          · intro hb hfl
            simp only [getConfidence, if_neg hb, hfl, if_pos]
            exact hHi acc.2
          · intro hb hfl hbd
            simp only [getConfidence, if_neg hb, hfl, hbd]
            simp only [Bool.false_eq_true, if_false, if_pos]
            exact hMed acc.2
          · intro hb hfl hbd
            simp [getConfidence, hb, hfl, hbd]
        · exact h3 ct hct

/-- Claim C4, counterexample.  A clause whose heading is `Governing Law`
but whose body does not contain the keyword is cited with confidence 0.0,
and the zero-confidence citation is kept in the output — contradicting
both "high if the keyword appears in the clause heading" and
"zero-confidence citations are omitted". -/
theorem c4_citation_counterexample :
    generate_citations [⟨"Governing Law", "somebodytext", 1, 1, 9/10, true⟩]
      (fun _ => 24/25) (fun _ => 9/10) =
      [⟨"Governing Law", "Governing Law", 1, 1, 0⟩] := by
  decide

/-- Claim C4, amended: for each keyword of the fixed list, at most one
citation is emitted (in keyword order), taken from the first clause in
clause order whose heading or first 500 body characters contain the
keyword case-insensitively; its confidence is drawn from [0.95, 0.99]
when the keyword occurs in the first line of the clause body, from
[0.85, 0.94] when it occurs elsewhere in the body, and is 0.0 when it
does not occur in the body (e.g. a heading-only match); zero-confidence
citations are retained in the output. -/
theorem c4_citation_amended :
    ∀ (clauses : List Clause) (rhi rmed : Nat → ℚ),
      (∀ k, 19/20 ≤ rhi k ∧ rhi k ≤ 99/100) →
      (∀ k, 17/20 ≤ rmed k ∧ rmed k ≤ 47/50) →
      ((generate_citations clauses rhi rmed).map Citation.keyword).Sublist kwList ∧
      ∀ ct ∈ generate_citations clauses rhi rmed,
        ∃ c, clauses.find? (matchesKw ct.keyword) = some c ∧
          ct.clause = c.heading ∧ ct.page_start = c.page_start ∧ ct.page_end = c.page_end ∧
          (c.body = "" → ct.confidence = 0) ∧
          (c.body ≠ "" → containsCI ct.keyword (pyFirstLine c.body) = true →
            19/20 ≤ ct.confidence ∧ ct.confidence ≤ 99/100) ∧
          (c.body ≠ "" → containsCI ct.keyword (pyFirstLine c.body) = false →
            containsCI ct.keyword c.body = true →
            17/20 ≤ ct.confidence ∧ ct.confidence ≤ 47/50) ∧
          (c.body ≠ "" → containsCI ct.keyword (pyFirstLine c.body) = false →
            containsCI ct.keyword c.body = false → ct.confidence = 0) := by
  intro clauses rhi rmed hHi hMed
  obtain ⟨rest, h1, h2, h3⟩ := citfold_spec clauses rhi rmed hHi hMed kwList ([], 0)
  have hg : generate_citations clauses rhi rmed = rest := by
    simp only [generate_citations, h1, List.nil_append]
  rw [hg]
  exact ⟨h2, h3⟩

/-- A clause with the `Margin` keyword in the first line of its body. -/
def c4cls : List Clause :=
  [⟨"Clause 10 Pricing", "The Margin shall accrue daily\nmore detail", 2, 3, 9/10, true⟩]

/-- Claim C4, witness: the amended theorem applied with draw streams
constantly 0.96 and 0.90, inside the required uniform ranges. -/
theorem c4_citation_witness :
    ((generate_citations c4cls (fun _ => 24/25) (fun _ => 9/10)).map Citation.keyword).Sublist
      kwList :=
  (c4_citation_amended c4cls (fun _ => 24/25) (fun _ => 9/10)
    (fun _ => by norm_num) (fun _ => by norm_num)).1

/-! ## Claim C3: determinism in regex-only mode

The regex-only pipeline is a pure function of the document-derived
signals *and* of the PRNG draw streams; its structure (everything except
the drawn `variance_score`/`is_standard`/confidence values) does not
depend on the draws, but the drawn values do, so two runs over an
identical document can differ. -/

/-- Two segmenter states that agree on everything except the PRNG-drawn
fields of the closed clauses. -/
def CRel (s1 s2 : CSt) : Prop :=
  s1.current = s2.current ∧ s1.k = s2.k ∧
  s1.clauses.map projClause = s2.clauses.map projClause

/-- Closing the current clause preserves structural agreement under
different draw streams. -/
lemma closeCurrent_rel (r1 r2 : Nat → ℚ) {s1 s2 : CSt} (h : CRel s1 s2) :
    CRel (closeCurrent r1 s1) (closeCurrent r2 s2) := by
  obtain ⟨hc, hk, hl⟩ := h
  by_cases hcond : 50 < (pyStrip s1.current.body).length
  · have hcond2 : 50 < (pyStrip s2.current.body).length := by rw [← hc]; exact hcond
    simp only [closeCurrent, if_pos hcond, if_pos hcond2]
    refine ⟨hc, by rw [hk], ?_⟩
    simp only [List.map_append, List.map_cons, List.map_nil]
    rw [hl]
    congr 2
    simp [projClause, hc]
  · have hcond2 : ¬ 50 < (pyStrip s2.current.body).length := by rw [← hc]; exact hcond
    simp only [closeCurrent, if_neg hcond, if_neg hcond2]
    exact ⟨hc, hk, hl⟩

/-- Processing a line preserves structural agreement. -/
lemma procLine_rel {r1 r2 : Nat → ℚ} {n : Nat} {line : String} {s1 s2 : CSt}
    (h : CRel s1 s2) : CRel (procLine r1 n s1 line) (procLine r2 n s2 line) := by
  unfold procLine
  cases hm : matchHeading line with
  | some g =>
    obtain ⟨g1, g2, g3⟩ := g
    have hcc := closeCurrent_rel r1 r2 h
    exact ⟨rfl, hcc.2.1, hcc.2.2⟩
  | none =>
    exact ⟨by rw [h.1], h.2.1, h.2.2⟩

/-- Processing a list of lines preserves structural agreement. -/
lemma lines_rel {r1 r2 : Nat → ℚ} {n : Nat} :
    ∀ (lines : List String) {s1 s2 : CSt}, CRel s1 s2 →
      CRel (lines.foldl (procLine r1 n) s1) (lines.foldl (procLine r2 n) s2)
  | [], _, _, h => h
  | _ :: ls, _, _, h => lines_rel ls (procLine_rel h)

/-- Processing the page list preserves structural agreement. -/
lemma pages_rel {r1 r2 : Nat → ℚ} :
    ∀ (pages : List Page) {s1 s2 : CSt}, CRel s1 s2 →
      CRel (pages.foldl (procPage r1) s1) (pages.foldl (procPage r2) s2)
  | [], _, _, h => h
  | _ :: ps, _, _, h => pages_rel ps (lines_rel _ h)

/-- The body of a clause is recoverable from its projection. -/
lemma projClause_body {a b : Clause} (h : projClause a = projClause b) :
    a.body = b.body :=
  congrArg (fun q => q.2.1) h

/-- The heading of a clause is recoverable from its projection. -/
lemma projClause_heading {a b : Clause} (h : projClause a = projClause b) :
    a.heading = b.heading :=
  congrArg (fun q => q.1) h

/-- The noise filter of `extract_clauses` respects the projection. -/
lemma filter_proj :
    ∀ (l1 l2 : List Clause), l1.map projClause = l2.map projClause →
      (l1.filter (fun c => 80 < (pyStrip c.body).length)).map projClause =
      (l2.filter (fun c => 80 < (pyStrip c.body).length)).map projClause := by
  intro l1
  induction l1 with
  | nil =>
    intro l2 h
    cases l2 with
    | nil => rfl
    | cons b t2 => simp at h
  | cons a t ih =>
    intro l2 h
    cases l2 with
    | nil => simp at h
    | cons b t2 =>
      simp only [List.map_cons, List.cons.injEq] at h
      have hbody := projClause_body h.1
      by_cases hp : 80 < (pyStrip a.body).length
      · rw [List.filter_cons, List.filter_cons, if_pos (by simpa using hp),
          if_pos (by simp [← hbody]; exact hp)]
        simp only [List.map_cons]
        rw [h.1, ih t2 h.2]
      · rw [List.filter_cons, List.filter_cons,
          if_neg (by simp only [decide_eq_true_eq]; exact hp),
          if_neg (by simp only [decide_eq_true_eq, ← hbody]; exact hp)]
        exact ih t2 h.2

/-- The clause structure produced by `extract_clauses` does not depend on
the variance draw stream. -/
lemma clauses_proj_indep (pages : List Page) (r1 r2 : Nat → ℚ) :
    (extract_clauses pages r1).map projClause =
    (extract_clauses pages r2).map projClause := by
  simp only [extract_clauses]
  apply filter_proj
  exact (closeCurrent_rel r1 r2 (pages_rel pages ⟨rfl, rfl, rfl⟩)).2.2

/-- The citation match test respects the projection. -/
lemma matchesKw_proj (kw : String) {a b : Clause} (h : projClause a = projClause b) :
    matchesKw kw a = matchesKw kw b := by
  simp [matchesKw, projClause_heading h, projClause_body h]

/-- `find?` over the citation match test respects the projection. -/
lemma find_proj (kw : String) :
    ∀ (l1 l2 : List Clause), l1.map projClause = l2.map projClause →
      Option.map projClause (l1.find? (matchesKw kw)) =
      Option.map projClause (l2.find? (matchesKw kw)) := by
  intro l1
  induction l1 with
  | nil =>
    intro l2 h
    cases l2 with
    | nil => rfl
    | cons b t2 => simp at h
  | cons a t ih =>
    intro l2 h
    cases l2 with
    | nil => simp at h
    | cons b t2 =>
      simp only [List.map_cons, List.cons.injEq] at h
      have hm := matchesKw_proj kw h.1
      by_cases hp : matchesKw kw a = true
      · rw [List.find?_cons_of_pos _ hp, List.find?_cons_of_pos _ (by rw [← hm]; exact hp)]
        simp [h.1]
      · rw [List.find?_cons_of_neg _ hp, List.find?_cons_of_neg _ (by rw [← hm]; exact hp)]
        exact ih t2 h.2

/-- The citation fold produces projection-equal outputs from
projection-equal clause lists, for any draw streams. -/
lemma citfold_proj {rh1 rm1 rh2 rm2 : Nat → ℚ} :
    ∀ (kws : List String) (l1 l2 : List Clause) (acc1 acc2 : List Citation × Nat),
      l1.map projClause = l2.map projClause →
      acc1.1.map projCit = acc2.1.map projCit → acc1.2 = acc2.2 →
      ((kws.foldl (citStep l1 rh1 rm1) acc1).1).map projCit =
      ((kws.foldl (citStep l2 rh2 rm2) acc2).1).map projCit := by
  intro kws
  induction kws with
  | nil =>
    intro l1 l2 acc1 acc2 _ h2 _
    exact h2
  | cons kw kws ih =>
    intro l1 l2 acc1 acc2 hl hacc hk
    simp only [List.foldl_cons]
    have hfind := find_proj kw l1 l2 hl
    cases hf1 : l1.find? (matchesKw kw) with
    | none =>
      cases hf2 : l2.find? (matchesKw kw) with
      | none =>
        have hs1 : citStep l1 rh1 rm1 acc1 kw = acc1 := by simp [citStep, hf1]
        have hs2 : citStep l2 rh2 rm2 acc2 kw = acc2 := by simp [citStep, hf2]
        rw [hs1, hs2]
        exact ih _ _ _ _ hl hacc hk
      | some c2 =>
        rw [hf1, hf2] at hfind
        simp at hfind
    | some c =>
      cases hf2 : l2.find? (matchesKw kw) with
      | none =>
        rw [hf1, hf2] at hfind
        simp at hfind
      | some c2 =>
        rw [hf1, hf2] at hfind
        simp only [Option.map_some'] at hfind
        have hpc : projClause c = projClause c2 := Option.some.inj hfind
        have hs1 : citStep l1 rh1 rm1 acc1 kw =
            (acc1.1 ++ [⟨kw, c.heading, c.page_start, c.page_end,
              getConfidence kw c.body (rh1 acc1.2) (rm1 acc1.2)⟩], acc1.2 + 1) := by
          simp [citStep, hf1]
        have hs2 : citStep l2 rh2 rm2 acc2 kw =
            (acc2.1 ++ [⟨kw, c2.heading, c2.page_start, c2.page_end,
              getConfidence kw c2.body (rh2 acc2.2) (rm2 acc2.2)⟩], acc2.2 + 1) := by
          simp [citStep, hf2]
        rw [hs1, hs2]
        refine ih _ _ _ _ hl ?_ (by simp [hk])
        simp only [List.map_append, List.map_cons, List.map_nil]
        rw [hacc]
        congr 2
        have h1 := projClause_heading hpc
        have h2 := congrArg (fun q => q.2.2.1) hpc
        have h3 := congrArg (fun q => q.2.2.2) hpc
        simp only [projCit, h1]
        simp only [projClause] at h2 h3
        rw [h2, h3]

/-- `generate_citations` produces a projection-equal output from
projection-equal clause lists, for any draw streams. -/
lemma citations_proj {l1 l2 : List Clause} {rh1 rm1 rh2 rm2 : Nat → ℚ}
    (hl : l1.map projClause = l2.map projClause) :
    (generate_citations l1 rh1 rm1).map projCit =
    (generate_citations l2 rh2 rm2).map projCit :=
  citfold_proj kwList l1 l2 ([], 0) ([], 0) hl rfl rfl

/-- The obligation structure does not depend on the confidence draws. -/
lemma obligations_proj (m0 m1 m2 m3 : Option String) (r1 r2 : Nat → ℚ) :
    (extract_obligations m0 m1 m2 m3 r1).map projOb =
    (extract_obligations m0 m1 m2 m3 r2).map projOb := by
  cases m0 <;> cases m1 <;> cases m2 <;> cases m3 <;> rfl

/-- The facility structure does not depend on the confidence draws. -/
lemma facilities_proj (tables : List Table) (mA mB mR gbp : Bool) (r1 r2 : Nat → ℚ) :
    (extract_facilities tables mA mB mR gbp r1).map projFac =
    (extract_facilities tables mA mB mR gbp r2).map projFac := by
  unfold extract_facilities
  cases hft : tables.find? (fun t => decide (t.ttype = "facility_schedule")) with
  | some t => rfl
  | none => cases mA <;> cases mB <;> cases mR <;> rfl

/-- The `build_dlr` facility fallback respects the projection. -/
lemma dlrFacilities_proj {e1 e2 : List Facility} {cm : Option ℚ} {ft cur : String}
    (h : e1.map projFac = e2.map projFac) :
    (dlrFacilities e1 cm ft cur).map projFac = (dlrFacilities e2 cm ft cur).map projFac := by
  have hnil : e1.isEmpty = e2.isEmpty := by
    cases e1 with
    | nil =>
      cases e2 with
      | nil => rfl
      | cons b t2 => simp at h
    | cons a t =>
      cases e2 with
      | nil => simp at h
      | cons b t2 => rfl
  unfold dlrFacilities
  rw [hnil]
  split
  · rfl
  · exact h

/-- Claim C3, amended: in regex-only mode the DLR is a function of the
document-derived signals and the PRNG draws; everything except the drawn
`variance_score`/`is_standard` and confidence values is independent of
the draws, so two runs on a byte-identical document agree on the whole
structure (clauses, facilities, covenants, obligations, events,
citations) after projecting those drawn fields away. -/
theorem c3_shape_deterministic_amended :
    ∀ (d : DocSignals) (r1 r2 : Rand),
      stripDLR (build_dlr_core d r1) = stripDLR (build_dlr_core d r2) := by
  intro d r1 r2
  simp only [stripDLR, build_dlr_core, Prod.mk.injEq]
  refine ⟨?_, ?_, ?_, ?_, ?_, ?_⟩
  · exact dlrFacilities_proj
      (facilities_proj d.tables d.facA d.facB d.facR d.gbpEarly r1.facDraw r2.facDraw)
  · trivial
  · exact obligations_proj d.ob0 d.ob1 d.ob2 d.ob3 r1.obligDraw r2.obligDraw
  · trivial
  · exact citations_proj (clauses_proj_indep d.pages r1.clauseDraw r2.clauseDraw)
  · exact clauses_proj_indep d.pages r1.clauseDraw r2.clauseDraw

/-- A regex-only document whose Financial-Statements obligation pattern
matched. -/
def c3doc : DocSignals :=
  { pages := [], tables := [], facA := false, facB := false, facR := false,
    gbpEarly := false, aiCommitment := none, amt1 := none, amt2 := none,
    levMatch := none, icrMatch := none,
    eod0 := false, eod1 := false, eod2 := false, eod3 := false, eod4 := false, eod5 := false,
    ob0 := some "shall deliver the financial statements", ob1 := none, ob2 := none, ob3 := none,
    facilityType := "Term Loan", currency := "USD" }

/-- Claim C3, counterexample.  Two runs over the same document signals
with different (both admissible) obligation-confidence draws — 0.93 and
0.95, each a possible outcome of `round(random.uniform(0.92, 0.99), 2)` —
produce different DLRs: the obligation confidence field differs, so the
DLR of regex-only mode is not free of nondeterministic fields. -/
theorem c3_determinism_counterexample :
    build_dlr_core c3doc
        ⟨fun _ => 9/10, fun _ => 9/10, fun _ => 93/100, fun _ => 24/25, fun _ => 9/10⟩ ≠
      build_dlr_core c3doc
        ⟨fun _ => 9/10, fun _ => 9/10, fun _ => 95/100, fun _ => 24/25, fun _ => 9/10⟩ ∧
    ((23 : ℚ)/25 ≤ 93/100 ∧ (93 : ℚ)/100 ≤ 99/100) ∧
    ((23 : ℚ)/25 ≤ 95/100 ∧ (95 : ℚ)/100 ≤ 99/100) := by
  refine ⟨?_, by norm_num, by norm_num⟩
  intro h
  have h2 := congrArg (fun dlr => dlr.obligations.map Obligation.confidence) h
  simp only [build_dlr_core, c3doc, extract_obligations, obStep, List.map_cons,
    List.map_nil, List.nil_append, List.cons.injEq] at h2
  exact absurd h2.1 (by norm_num)

end LoanTwin
